import Mathlib

/-!
Verification of the feature-pilot-api proposal-to-patch pipeline.

Shallow embedding of `feature_pilot_api/ai_agent/agent.py` and
`feature_pilot_api/ai_agent/services.py`.  Pure computations (string
splitting, replacement, JSON extraction/parsing, proposal validation)
become Lean functions; the stateful GitHub interaction of the Change
Applier becomes explicit state passing over a `RepoState`; Python
exceptions become `Except` results.  External nondeterminism (the LLM
call, timestamps, GitHub-assigned PR URLs) is abstracted as explicit
parameters or counters, documented at each definition.
-/

namespace FeaturePilot

/-- Left and right curly brace characters, used by the JSON-span
extractor and the JSON parser. -/
def lbrace : Char := Char.ofNat 123

/-- Right curly brace character. -/
def rbrace : Char := Char.ofNat 125

/-- Substring containment on character lists: Python's `needle in hay`
for strings.  The empty needle is contained in everything, as in Python. -/
def containsSub (needle : List Char) : List Char → Bool
  | [] => needle.isEmpty
  | c :: cs => needle.isPrefixOf (c :: cs) || containsSub needle cs

/-- Python `needle in hay` on `String`s. -/
def pyIn (needle hay : String) : Bool := containsSub needle.data hay.data

/-- Python `s.startswith(pre)`. -/
def pyStartsWith (pre s : String) : Bool := pre.data.isPrefixOf s.data

/-- Core of Python `str.splitlines` restricted to `\n` line boundaries
(the only newline convention exercised by this code base): the final
line is emitted without a trailing empty entry when the text ends in a
newline, and the empty text yields no lines at all. -/
def splitlinesCore : List Char → List Char → List (List Char)
  | acc, [] => [acc.reverse]
  | acc, c :: cs =>
    if c = '\n' then
      acc.reverse :: (if cs.isEmpty then [] else splitlinesCore [] cs)
    else
      splitlinesCore (c :: acc) cs

/-- Python `s.splitlines()` (with `\n` boundaries): `""` gives `[]`,
`"a\nb\n"` gives `["a", "b"]`. -/
def pySplitlines (s : String) : List String :=
  if s.data.isEmpty then [] else (splitlinesCore [] s.data).map String.mk

/-- Python `"\n".join(lines)`. -/
def joinLines : List String → String
  | [] => ""
  | [l] => l
  | l :: ls => l ++ "\n" ++ joinLines ls

/-- Fuel-driven core of Python `str.replace(old, new)`: leftmost,
non-overlapping replacement of every occurrence; an empty `old` inserts
`new` before every character and once at the end, exactly as Python
does.  With fuel at least `length + 1` the fuel is never exhausted. -/
def replaceCore (old new : List Char) : Nat → List Char → List Char
  | 0, cs => cs
  | _ + 1, [] => if old.isEmpty then new else []
  | fuel + 1, c :: cs =>
    if old.isEmpty then new ++ c :: replaceCore old new fuel cs
    else if old.isPrefixOf (c :: cs) then
      new ++ replaceCore old new fuel ((c :: cs).drop old.length)
    else
      c :: replaceCore old new fuel cs

/-- Python `s.replace(old, new)` (replace all occurrences). -/
def pyReplace (s old new : String) : String :=
  String.mk (replaceCore old.data new.data (s.data.length + 1) s.data)

/-- Python sequence-index resolution for reading/writing position `i`
of a length-`n` list: negative indices count from the end, and indices
outside `[-n, n)` are invalid (`IndexError`). -/
def pyIndex (n : Nat) (i : Int) : Option Nat :=
  if i < 0 then
    (if i + n < 0 then none else some (i + n).toNat)
  else
    (if i < n then some i.toNat else none)

/-- Python `l[i] = x`: `none` models the `IndexError` raised on an
out-of-range index. -/
def pyListSet (l : List String) (i : Int) (x : String) : Option (List String) :=
  (pyIndex l.length i).map (fun k => l.set k x)

/-- Python `del l[i]`: `none` models the `IndexError` raised on an
out-of-range index. -/
def pyListDel (l : List String) (i : Int) : Option (List String) :=
  (pyIndex l.length i).map (fun k => l.eraseIdx k)

/-- Python `l.insert(i, x)`: never raises; the index is clamped into
`[0, n]`, with negative indices counted from the end first. -/
def pyListInsert (l : List String) (i : Int) (x : String) : List String :=
  let k : Nat := if i < 0 then (max (i + l.length) 0).toNat else (min i (l.length : Int)).toNat
  l.take k ++ x :: l.drop k

/-- Model of the Python values that flow through the pipeline: JSON
documents, their fields, and the dictionaries the agent returns.
Non-integral JSON numbers are kept as their lexeme, since no arithmetic
is ever performed on them. -/
inductive PyVal where
  | str (s : String)
  | int (n : Int)
  | floatLit (lexeme : String)
  | bool (b : Bool)
  | none
  | list (elems : List PyVal)
  | dict (entries : List (String × PyVal))

/-- Key lookup in a Python dict (association list; keys are unique). -/
def lookupKey (d : List (String × PyVal)) (k : String) : Option PyVal :=
  (d.find? (fun kv => kv.1 = k)).map (fun kv => kv.2)

/-- Python `k in d` for a dict. -/
def hasKeyD (d : List (String × PyVal)) (k : String) : Bool :=
  (lookupKey d k).isSome

/-- Key membership on a `PyVal` known to be a dict (`false` otherwise). -/
def hasKeyV (v : PyVal) (k : String) : Bool :=
  match v with
  | .dict d => hasKeyD d k
  | _ => false

/-- Python `d.get(k, dflt)`. -/
def getDefault (d : List (String × PyVal)) (k : String) (dflt : PyVal) : PyVal :=
  (lookupKey d k).getD dflt

/-- Fuel-driven search for a substring anywhere inside a value: a key
or a string leaf containing `needle` counts.  Fuel at least the
`sizeOf` of the value makes the search complete. -/
def mentionsFuel (needle : String) : Nat → PyVal → Bool
  | 0, _ => false
  | fuel + 1, v =>
    match v with
    | .str s => pyIn needle s
    | .list l => l.any (fun x => mentionsFuel needle fuel x)
    | .dict d => d.any (fun kv => pyIn needle kv.1 || mentionsFuel needle fuel kv.2)
    | _ => false

/-- A value "contains" a piece of text to depth `depth` when some key
or string leaf within that depth contains the text as a substring.
When `depth` is at least the nesting depth of the value the search is
complete; theorems below only apply it to values of known shape. -/
def mentionsWithin (depth : Nat) (v : PyVal) (needle : String) : Bool :=
  mentionsFuel needle depth v

/-- The four top-level keys of a well-formed ChangeProposal document. -/
def proposalKeys : List String :=
  ["feedback_analysis", "files_to_examine", "proposed_changes", "additional_recommendations"]

/-- Whether a value is a dict carrying all four ChangeProposal keys. -/
def hasAllFourKeys (v : PyVal) : Bool :=
  match v with
  | .dict d => proposalKeys.all (fun k => hasKeyD d k)
  | _ => false

/-! ### JSON parsing (model of `json.loads`) -/

/-- JSON whitespace skipped by `json.loads` between tokens. -/
def skipWs (cs : List Char) : List Char :=
  cs.dropWhile (fun c => c = ' ' || c = '\t' || c = '\n' || c = '\r')

/-- Consume an expected literal character sequence. -/
def expectLit : List Char → List Char → Option (List Char)
  | [], cs => some cs
  | _ :: _, [] => Option.none
  | l :: ls, c :: cs => if c = l then expectLit ls cs else Option.none

/-- Hexadecimal digit value. -/
def hexVal (c : Char) : Option Nat :=
  if '0' ≤ c ∧ c ≤ '9' then some (c.toNat - '0'.toNat)
  else if 'a' ≤ c ∧ c ≤ 'f' then some (c.toNat - 'a'.toNat + 10)
  else if 'A' ≤ c ∧ c ≤ 'F' then some (c.toNat - 'A'.toNat + 10)
  else Option.none

/-- Simple escape characters of JSON strings. -/
def escChar (c : Char) : Option Char :=
  if c = '"' then some '"'
  else if c = '\\' then some '\\'
  else if c = '/' then some '/'
  else if c = 'b' then some (Char.ofNat 8)
  else if c = 'f' then some (Char.ofNat 12)
  else if c = 'n' then some '\n'
  else if c = 'r' then some '\r'
  else if c = 't' then some '\t'
  else Option.none

/-- Body of a JSON string after the opening quote (fuel-driven; fuel at
least `length + 1` suffices).  Control characters are rejected, as in
strict-mode `json.loads`; `\uXXXX` escapes outside the surrogate range
decode to the corresponding character. -/
def parseStringBody : Nat → List Char → Option (List Char × List Char)
  | 0, _ => Option.none
  | _ + 1, [] => Option.none
  | fuel + 1, c :: cs =>
    if c = '"' then some ([], cs)
    else if c = '\\' then
      match cs with
      | [] => Option.none
      | e :: cs' =>
        if e = 'u' then
          match cs' with
          | h1 :: h2 :: h3 :: h4 :: cs'' =>
            match hexVal h1, hexVal h2, hexVal h3, hexVal h4 with
            | some a, some b, some c3, some d =>
              let n := ((a * 16 + b) * 16 + c3) * 16 + d
              if 0xD800 ≤ n ∧ n < 0xE000 then Option.none
              else (parseStringBody fuel cs'').map (fun p => (Char.ofNat n :: p.1, p.2))
            | _, _, _, _ => Option.none
          | _ => Option.none
        else
          match escChar e with
          | some d => (parseStringBody fuel cs').map (fun p => (d :: p.1, p.2))
          | Option.none => Option.none
    else if c.toNat < 0x20 then Option.none
    else (parseStringBody fuel cs).map (fun p => (c :: p.1, p.2))

/-- Digits to a natural number. -/
def digitsToNat (ds : List Char) : Nat :=
  ds.foldl (fun acc c => acc * 10 + (c.toNat - '0'.toNat)) 0

/-- A JSON number: optional minus, integer part without leading zeros,
optional fraction and exponent.  Integral literals become `PyVal.int`
(as in Python); anything with a fraction or exponent keeps its lexeme. -/
def parseNumber (cs : List Char) : Option (PyVal × List Char) :=
  let (neg, cs1) := match cs with
    | '-' :: rest => (true, rest)
    | _ => (false, cs)
  let ds := cs1.takeWhile Char.isDigit
  let cs2 := cs1.dropWhile Char.isDigit
  if ds.isEmpty then Option.none
  else if ds.length > 1 ∧ ds.headD '0' = '0' then Option.none
  else
    let (frac, cs3) := match cs2 with
      | '.' :: rest =>
        let fs := rest.takeWhile Char.isDigit
        if fs.isEmpty then ([], cs2) else ('.' :: fs, rest.dropWhile Char.isDigit)
      | _ => ([], cs2)
    let (expPart, cs4) := match cs3 with
      | e :: rest =>
        if e = 'e' ∨ e = 'E' then
          let (sgn, rest2) := match rest with
            | s :: r2 => if s = '+' ∨ s = '-' then ([s], r2) else ([], rest)
            | [] => ([], rest)
          let es := rest2.takeWhile Char.isDigit
          if es.isEmpty then ([], cs3)
          else (e :: sgn ++ es, rest2.dropWhile Char.isDigit)
        else ([], cs3)
      | [] => ([], cs3)
    if frac.isEmpty ∧ expPart.isEmpty then
      let n : Int := Int.ofNat (digitsToNat ds)
      some (.int (if neg then -n else n), cs2)
    else
      let lex := (if neg then ['-'] else []) ++ ds ++ frac ++ expPart
      some (.floatLit (String.mk lex), cs4)

mutual

/-- A JSON value (fuel-driven recursive-descent parser; every mutual
call strictly decreases the fuel, and `2 * length + 2` fuel suffices
for any input). -/
def parseValue : Nat → List Char → Option (PyVal × List Char)
  | 0, _ => Option.none
  | fuel + 1, cs =>
    match skipWs cs with
    | [] => Option.none
    | c :: rest =>
      if c = lbrace then (parseObjectRest fuel rest).map (fun p => (.dict p.1, p.2))
      else if c = '[' then (parseArrayRest fuel rest).map (fun p => (.list p.1, p.2))
      else if c = '"' then
        (parseStringBody (rest.length + 1) rest).map (fun p => (.str (String.mk p.1), p.2))
      else if c = 'n' then (expectLit ['u', 'l', 'l'] rest).map (fun r => (.none, r))
      else if c = 't' then (expectLit ['r', 'u', 'e'] rest).map (fun r => (.bool true, r))
      else if c = 'f' then (expectLit ['a', 'l', 's', 'e'] rest).map (fun r => (.bool false, r))
      else parseNumber (c :: rest)

/-- One `"key": value` member of a JSON object. -/
def parseMember : Nat → List Char → Option ((String × PyVal) × List Char)
  | 0, _ => Option.none
  | fuel + 1, cs =>
    match skipWs cs with
    | c :: rest =>
      if c = '"' then
        match parseStringBody (rest.length + 1) rest with
        | some (key, r1) =>
          match skipWs r1 with
          | ':' :: r2 =>
            (parseValue fuel r2).map (fun p => ((String.mk key, p.1), p.2))
          | _ => Option.none
        | Option.none => Option.none
      else Option.none
    | [] => Option.none

/-- Members of a JSON object, just after the opening brace. -/
def parseObjectRest : Nat → List Char → Option (List (String × PyVal) × List Char)
  | 0, _ => Option.none
  | fuel + 1, cs =>
    match skipWs cs with
    | c :: rest =>
      if c = rbrace then some ([], rest)
      else
        match parseMember fuel cs with
        | some (kv, r1) => (parseObjectTail fuel r1).map (fun p => (kv :: p.1, p.2))
        | Option.none => Option.none
    | [] => Option.none

/-- Remaining members of a JSON object after a complete member. -/
def parseObjectTail : Nat → List Char → Option (List (String × PyVal) × List Char)
  | 0, _ => Option.none
  | fuel + 1, cs =>
    match skipWs cs with
    | c :: rest =>
      if c = rbrace then some ([], rest)
      else if c = ',' then
        match parseMember fuel rest with
        | some (kv, r1) => (parseObjectTail fuel r1).map (fun p => (kv :: p.1, p.2))
        | Option.none => Option.none
      else Option.none
    | [] => Option.none

/-- Elements of a JSON array, just after the opening bracket. -/
def parseArrayRest : Nat → List Char → Option (List PyVal × List Char)
  | 0, _ => Option.none
  | fuel + 1, cs =>
    match skipWs cs with
    | c :: rest =>
      if c = ']' then some ([], rest)
      else
        match parseValue fuel cs with
        | some (v, r1) => (parseArrayTail fuel r1).map (fun p => (v :: p.1, p.2))
        | Option.none => Option.none
    | [] => Option.none

/-- Remaining elements of a JSON array after a complete element. -/
def parseArrayTail : Nat → List Char → Option (List PyVal × List Char)
  | 0, _ => Option.none
  | fuel + 1, cs =>
    match skipWs cs with
    | c :: rest =>
      if c = ']' then some ([], rest)
      else if c = ',' then
        match parseValue fuel rest with
        | some (v, r1) => (parseArrayTail fuel r1).map (fun p => (v :: p.1, p.2))
        | Option.none => Option.none
      else Option.none
    | [] => Option.none

end

/-- Model of Python `json.loads`: parse one value and require only
whitespace after it. -/
def jsonLoads (s : String) : Option PyVal :=
  match parseValue (2 * s.data.length + 2) s.data with
  | some (v, rest) => if (skipWs rest).isEmpty then some v else Option.none
  | Option.none => Option.none

/-! ### The Repairer: JSON-span extraction and cleanup
(`analyze_feedback`, agent.py lines 243-253). -/

/-- The suffix of the text from its earliest left brace on. -/
def bracePre (cs : List Char) : List Char :=
  cs.dropWhile (fun c => c ≠ lbrace)

/-- That suffix truncated at its latest right brace, reversed. -/
def braceRev (cs : List Char) : List Char :=
  (bracePre cs).reverse.dropWhile (fun c => c ≠ rbrace)

/-- Model of `re.search(r'\x7b.*\x7d', text, re.DOTALL)`: the greedy
match runs from the earliest left brace to the latest right brace, and
exists exactly when some right brace follows the earliest left brace. -/
def braceSpan (cs : List Char) : Option (List Char) :=
  if (bracePre cs).isEmpty || (braceRev cs).isEmpty then Option.none
  else some (braceRev cs).reverse

/-- Whitespace characters matched by the regex class `\s` (ASCII). -/
def isPyWs (c : Char) : Bool :=
  c = ' ' || c = '\t' || c = '\n' || c = '\r' || c = Char.ofNat 11 || c = Char.ofNat 12

/-- Core of `re.sub(r'\n\s*', ' ', s)`: each newline together with the
whitespace run following it collapses to a single space.  The flag
records whether we are inside such a run. -/
def collapseCore : Bool → List Char → List Char
  | _, [] => []
  | inWs, c :: cs =>
    if inWs && isPyWs c then collapseCore true cs
    else if c = '\n' then ' ' :: collapseCore true cs
    else c :: collapseCore false cs

/-- `re.sub(r'\n\s*', ' ', s)` on strings. -/
def collapseNewlineRuns (s : String) : String :=
  String.mk (collapseCore false s.data)

/-- The second cleanup, `re.sub(r'(?<!\\)"', '"', s)`, replaces every
double quote not preceded by a backslash with a double quote — it is
character-for-character the identity on the string. -/
def fixQuotes (s : String) : String := s

/-- The extraction step of the Repairer on the raw model text. -/
def extract_json_span (s : String) : Option String :=
  (braceSpan s.data).map String.mk

/-- The normalization step of the Repairer applied to the captured span. -/
def clean_json_str (s : String) : String :=
  fixQuotes (collapseNewlineRuns s)

/-- Extraction followed by normalization (the full repair of the span). -/
def repairSpan (s : String) : Option String :=
  (extract_json_span s).map clean_json_str

/-! ### `FeedbackToFeatureAgent.analyze_feedback` (agent.py lines 182-270)

The tool-calling loop `self.executor.invoke(...)` is an external LLM
call; it is abstracted as a parameter `llm`, either the `output` text
of the completed loop or the message of the exception it raised.  The
exact text of Python's `JSONDecodeError` is abstracted as a fixed
message, since only the `"error"` marker and the other fields matter
downstream. -/
def analyze_feedback (feedback : String) (llm : Except String String) : PyVal :=
  match llm with
  | .error e =>
    .dict [("error", .str ("Error analyzing feedback: " ++ e)),
           ("feedback", .str feedback)]
  | .ok output =>
    match extract_json_span output with
    | some span =>
      match jsonLoads (clean_json_str span) with
      | some v => v
      | Option.none =>
        .dict [("error", .str "JSON parsing failed: <JSONDecodeError>"),
               ("raw_response", .str output),
               ("attempted_cleanup", .bool true)]
    | Option.none =>
      .dict [("error", .str "Could not parse JSON response"),
             ("raw_response", .str output)]

/-! ### `FeedbackToFeatureAgent.validate_proposal` (agent.py lines 272-286) -/

/-- Python `field in v` for the values a change entry may hold: key
membership for dicts, substring for strings, element membership for
lists (only string elements can equal a string), `TypeError` otherwise. -/
def pyFieldIn (field : String) (v : PyVal) : Except String Bool :=
  match v with
  | .dict d => .ok (hasKeyD d field)
  | .str s => .ok (pyIn field s)
  | .list l =>
    .ok (l.any (fun x => match x with
      | .str t => t = field
      | _ => false))
  | _ => .error "TypeError: argument of type is not iterable"

/-- Python iteration over the value bound to `proposed_changes`: lists
yield their elements, strings their characters, dicts their keys;
anything else raises `TypeError`. -/
def pyIterElems (v : PyVal) : Except String (List PyVal) :=
  match v with
  | .list l => .ok l
  | .str s => .ok (s.data.map (fun c => .str (String.mk [c])))
  | .dict d => .ok (d.map (fun kv => .str kv.1))
  | _ => .error "TypeError: object is not iterable"

/-- Fields every change entry must carry. -/
def requiredChangeFields : List String :=
  ["file_path", "change_type", "new_code", "reason"]

/-- `all(field in change for field in required_change_fields)`,
short-circuiting left to right. -/
def allFieldsIn : List String → PyVal → Except String Bool
  | [], _ => .ok true
  | f :: fs, v => do
    let b ← pyFieldIn f v
    if b then allFieldsIn fs v else .ok false

/-- The `for change in ...` loop of `validate_proposal`, returning
`False` at the first entry missing a required field. -/
def checkChangesLoop : List PyVal → Except String Bool
  | [] => .ok true
  | c :: cs => do
    let ok ← allFieldsIn requiredChangeFields c
    if ok then checkChangesLoop cs else .ok false

/-- `FeedbackToFeatureAgent.validate_proposal`: rejects error-marked
documents, requires the `feedback_analysis` and `proposed_changes`
keys, and requires the four fields on every change entry. -/
def validate_proposal (proposal : List (String × PyVal)) : Except String Bool :=
  if hasKeyD proposal "error" then .ok false
  else if !(hasKeyD proposal "feedback_analysis" && hasKeyD proposal "proposed_changes") then
    .ok false
  else do
    let items ← pyIterElems (getDefault proposal "proposed_changes" (.list []))
    checkChangesLoop items

/-- `AIAnalysisService.validate_proposal` (services.py lines 215-231):
rebuilds the document with defaults — empty string for a missing
`feedback_analysis`, empty list for a missing `proposed_changes` — and
delegates to the agent's validator. -/
def service_validate_proposal (proposal_data : List (String × PyVal)) : Except String Bool :=
  validate_proposal
    [("feedback_analysis", getDefault proposal_data "feedback_analysis" (.str "")),
     ("proposed_changes", getDefault proposal_data "proposed_changes" (.list []))]

/-! ### The Change Applier (`apply_changes`, agent.py lines 315-421)

The GitHub repository is modeled as the file map of the default branch
`main` plus a record of the commits made on freshly created branches
(writes never touch `main`: every read in the code is at `ref="main"`
while every write goes to the new branch).  Branch creation, commits
and pull-request opening are modeled as always succeeding; the
timestamp-and-hash branch name and the GitHub-assigned PR URL are
abstracted by a per-state counter.  Python exceptions inside the
per-item `try` (missing keys, index errors) are the `raised` results
below; they occur before any mutation of the item. -/

/-- One change entry of a proposal; `Option.none` fields model missing
dictionary keys. -/
structure ChangeItem where
  file_path : Option String := Option.none
  change_type : Option String := Option.none
  line_number : Option Int := Option.none
  current_code : Option String := Option.none
  new_code : Option String := Option.none
  reason : Option String := Option.none
  impact : Option String := Option.none

/-- The proposal dictionary as consumed by `apply_changes`. -/
structure AgentProposal where
  feedback_analysis : Option String := Option.none
  proposed_changes : List ChangeItem := []

/-- A commit made on a fresh branch. -/
structure Commit where
  branch : String
  path : String
  message : String
  content : String
  isCreate : Bool

/-- The repository: contents of `main` in traversal order (only the
readable files, since unreadable ones are silently skipped by
`list_all_files`), commits made on new branches, and the number of
pull requests opened so far. -/
structure RepoState where
  files : List (String × String)
  commits : List Commit := []
  prs : Nat := 0

/-- Read a file from `main` (`Option.none` models the 404). -/
def lookupFile (st : RepoState) (p : String) : Option String :=
  (st.files.find? (fun f => f.1 = p)).map (fun f => f.2)

/-- `list_all_files`: recursive traversal order = order of `files`. -/
def list_all_files (st : RepoState) : List String :=
  st.files.map (fun f => f.1)

/-- The loop body of `find_file_with_code`: note the Python truthiness
guard `if code_snippet and code_snippet in content`, which makes an
empty snippet match nothing. -/
def findCodeLoop : List (String × String) → String → Option String
  | [], _ => Option.none
  | (p, content) :: rest, snippet =>
    if (!snippet.isEmpty) && pyIn snippet content then some p else findCodeLoop rest snippet

/-- `FeedbackToFeatureAgent.find_file_with_code` (agent.py lines 302-313). -/
def find_file_with_code (st : RepoState) (snippet : String) : Option String :=
  findCodeLoop st.files snippet

/-- File resolution of the Applier: when `current_code` is non-empty
and some file contains it, that file overrides the stated path. -/
def resolvedPath (st : RepoState) (cur fp0 : String) : String :=
  if cur ≠ "" then
    match find_file_with_code st cur with
    | some f => f
    | Option.none => fp0
  else fp0

/-- The per-PR URL assigned by the repository host, abstracted by the
running pull-request counter. -/
def mkPrUrl (n : Nat) : String := "https://github.com/pull/" ++ toString n

/-- The per-item branch name; the timestamp and path-hash components of
`ai-feedback-{timestamp}-{hash(file_path) % 10000}` are abstracted by
the PR counter and the path itself. -/
def branchName (n : Nat) (fp : String) : String :=
  "ai-feedback-" ++ toString n ++ "-" ++ fp

/-- Marker prefix of a success outcome as it actually appears in
agent.py: the file is mojibake-encoded, so the bytes spell the three
characters U+201A, U+00FA, U+00D6 rather than a check-mark emoji. -/
def agentOk : String := "‚úÖ"

/-- Marker prefix of a failure outcome as it actually appears in
agent.py: the characters U+201A, U+00F9, U+00E5. -/
def agentErr : String := "‚ùå"

/-- The success marker `services.py` scans for: the check-mark emoji
U+2705 (a different string from `agentOk`). -/
def svcOk : String := "✅"

/-- The failure marker `services.py` scans for: the cross-mark emoji
U+274C (a different string from `agentErr`). -/
def svcErr : String := "❌"

/-- Result of the new-content computation (agent.py lines 347-370):
either the new file text, the unknown-change-type case (which appends
a failure outcome and continues), or an `IndexError` message. -/
inductive NewContent where
  | content (s : String)
  | unknownType
  | indexError (msg : String)
deriving DecidableEq

/-- The new-content computation of the Applier, exactly as branched in
agent.py lines 347-369: `add` inserts (clamping, as Python
`list.insert` does) or appends after a newline; `modify` assigns the
line or replaces all occurrences of `current_code`; `delete` removes
the line or replaces occurrences with the empty string. -/
def computeNewContent (ct : String) (ln : Option Int) (cur nc content : String) : NewContent :=
  if ct = "add" then
    match ln with
    | some i => .content (joinLines (pyListInsert (pySplitlines content) (i - 1) nc))
    | Option.none => .content (content ++ "\n" ++ nc)
  else if ct = "modify" then
    match ln with
    | some i =>
      match pyListSet (pySplitlines content) (i - 1) nc with
      | some ls => .content (joinLines ls)
      | Option.none => .indexError "list assignment index out of range"
    | Option.none => .content (pyReplace content cur nc)
  else if ct = "delete" then
    match ln with
    | some i =>
      match pyListDel (pySplitlines content) (i - 1) with
      | some ls => .content (joinLines ls)
      | Option.none => .indexError "list assignment index out of range"
    | Option.none => .content (pyReplace content cur "")
  else .unknownType

/-- Result of processing one change item: an appended outcome message
with the updated repository, or an uncaught Python exception (to be
handled by the per-item `except` clause). -/
inductive ItemRes where
  | outcome (msg : String) (st : RepoState)
  | raised (msg : String)

/-- Branch creation, commit and pull-request opening for a computed
content; `fileExisted = false` happens only in the 404-and-add path,
where `create_file` is used instead of `update_file`. -/
def commitAndPr (st : RepoState) (fp : String) (reason newC : String)
    (fileExisted : Bool) : String × RepoState :=
  let cmt : Commit :=
    { branch := branchName st.prs fp, path := fp,
      message := "AI Feedback Implementation: " ++ reason,
      content := newC, isCreate := !fileExisted }
  (agentOk ++ " PR Created: " ++ mkPrUrl st.prs,
   { st with commits := st.commits ++ [cmt], prs := st.prs + 1 })

/-- The part of the per-item body after the current content is known. -/
def afterContent (st : RepoState) (fp ct : String) (ln : Option Int)
    (cur nc reason : String) (fileExisted : Bool) (content : String) :
    Option String × ItemRes :=
  match computeNewContent ct ln cur nc content with
  | .unknownType => (some fp, .outcome (agentErr ++ " Unknown change type: " ++ ct) st)
  | .indexError msg => (some fp, .raised msg)
  | .content newC =>
    let r := commitAndPr st fp reason newC fileExisted
    (some fp, .outcome r.1 r.2)

/-- One iteration of the `for change in ...` loop of `apply_changes`.
The first component is the binding of the Python local `file_path`
after the iteration: it starts as `carried` (the value left over from
earlier iterations, or unbound) and is overwritten as the body
executes, which is what the `except` clause later reads. -/
def applyItem (st : RepoState) (carried : Option String) (c : ChangeItem) :
    Option String × ItemRes :=
  match c.file_path with
  | Option.none => (carried, .raised "'file_path'")
  | some fp0 =>
    match c.change_type with
    | Option.none => (some fp0, .raised "'change_type'")
    | some ct =>
      match c.new_code with
      | Option.none => (some fp0, .raised "'new_code'")
      | some nc =>
        match c.reason with
        | Option.none => (some fp0, .raised "'reason'")
        | some reason =>
          let cur := c.current_code.getD ""
          let fp := resolvedPath st cur fp0
          match lookupFile st fp with
          | Option.none =>
            if ct = "add" then afterContent st fp ct c.line_number cur nc reason false ""
            else
              (some fp,
               .outcome (agentErr ++ " File " ++ fp ++ " not found for " ++ ct ++ " operation.") st)
          | some content => afterContent st fp ct c.line_number cur nc reason true content

/-- The outcome-accumulating loop of `apply_changes`.  A raised
exception is caught by the `except` clause, which formats its message
with the local `file_path`; when that local was never assigned (a
first-item `KeyError` on `file_path`), the handler itself raises
`UnboundLocalError`, which escapes `apply_changes` — the `error`
result, carrying the repository state at that moment. -/
def applyLoop (st : RepoState) (carried : Option String) :
    List ChangeItem → Except (String × RepoState) (List String × RepoState)
  | [] => .ok ([], st)
  | c :: cs =>
    match applyItem st carried c with
    | (fp', .outcome msg st') =>
      match applyLoop st' fp' cs with
      | .ok (msgs, stF) => .ok (msg :: msgs, stF)
      | .error e => .error e
    | (fp', .raised emsg) =>
      match fp' with
      | Option.none =>
        .error ("UnboundLocalError: local variable referenced before assignment", st)
      | some fpv =>
        match applyLoop st fp' cs with
        | .ok (msgs, stF) =>
          .ok ((agentErr ++ " Error applying change to " ++ fpv ++ ": " ++ emsg) :: msgs, stF)
        | .error e => .error e

/-- `FeedbackToFeatureAgent.apply_changes` (agent.py lines 315-421). -/
def apply_changes (prop : AgentProposal) (st : RepoState) :
    Except (String × RepoState) (List String × RepoState) :=
  applyLoop st Option.none prop.proposed_changes

/-! ### `AIAnalysisService.apply_proposal_changes` (services.py lines 94-184) -/

/-- The result dictionary returned by the service. -/
structure ApplyResult where
  success : Bool
  message : String
  pull_request_urls : List String := []
  errors : List String := []

/-- The stored `proposal_data` document.  The last three fields are the
keys the success branch of the service would add to the document. -/
structure ProposalData where
  feedback_analysis : Option String := Option.none
  proposed_changes : Option (List ChangeItem) := Option.none
  applied_changes : Option (List ChangeItem) := Option.none
  pull_request_urls : Option (List String) := Option.none
  applied_at_key : Option String := Option.none

/-- The stored Proposal row: the document plus the external record
fields (status, applied_at, pr_url). -/
structure ProposalRec where
  proposal_data : ProposalData
  status : String := "pending"
  applied_at : Option String := Option.none
  pr_url : Option String := Option.none

/-- The `change_indices` filter: indices in range select their item, in
the order given, out-of-range indices are dropped. -/
def filterByIndices (l : List ChangeItem) (idxs : List Int) : List ChangeItem :=
  idxs.filterMap (fun i =>
    if 0 ≤ i ∧ i < (l.length : Int) then l.get? i.toNat else Option.none)

/-- `AIAnalysisService.apply_proposal_changes`: applies the (possibly
filtered) changes via the agent and classifies the outcomes by the
`svcOk`/`svcErr` markers; `now` abstracts `timezone.now()`.  Returns
the result dictionary, the updated proposal row, and the repository. -/
def apply_proposal_changes (prec : ProposalRec) (st : RepoState)
    (change_indices : Option (List Int)) (now : String) :
    ApplyResult × ProposalRec × RepoState :=
  let pd := prec.proposal_data
  let pcs0 := pd.proposed_changes.getD []
  if pcs0.isEmpty then
    ({ success := false, message := "No proposed changes found",
       errors := ["No changes to apply"] }, prec, st)
  else
    let pcs := match change_indices with
      | some idxs => filterByIndices pcs0 idxs
      | Option.none => pcs0
    if pcs.isEmpty then
      ({ success := false, message := "No valid changes found to apply",
         errors := ["Invalid change indices"] }, prec, st)
    else
      let agent_prop : AgentProposal :=
        { feedback_analysis := some (pd.feedback_analysis.getD ""), proposed_changes := pcs }
      match apply_changes agent_prop st with
      | .error e =>
        ({ success := false, message := "Failed to apply changes: " ++ e.1,
           errors := [e.1] }, prec, e.2)
      | .ok (results, st') =>
        let urls := results.filterMap (fun r =>
          if pyStartsWith (svcOk ++ " PR Created:") r then
            some (pyReplace r (svcOk ++ " PR Created: ") "")
          else Option.none)
        let errs := results.filter (fun r => pyStartsWith svcErr r)
        let success := decide (0 < urls.length) && errs.isEmpty
        if success then
          ({ success := true,
             message := "Applied " ++ toString urls.length ++ " changes successfully",
             pull_request_urls := urls, errors := errs },
           { prec with
               status := "applied", applied_at := some now, pr_url := urls.head?,
               proposal_data :=
                 { pd with applied_changes := some pcs,
                           pull_request_urls := some urls,
                           applied_at_key := some now } }, st')
        else
          ({ success := false, message := "Some changes failed to apply",
             pull_request_urls := urls, errors := errs }, prec, st')

/-! ### Reference definitions taken from the spec's words -/

/-- Modelled from the spec: insertion "immediately before the 1-indexed
position (i.e. at array index `line_number - 1`)" (§4.4). -/
def specInsertLine (lines : List String) (k : Nat) (nc : String) : List String :=
  lines.take (k - 1) ++ nc :: lines.drop (k - 1)

/-- Modelled from the spec: the six-case new-content reference of §4.4,
on the in-range domain.  "Replace every literal occurrence" is
leftmost non-overlapping textual replacement (`pyReplace`); "append as
a new trailing line" appends a newline and the code. -/
def specNewContent (ct : String) (ln : Option Nat) (cur nc content : String) : String :=
  let lines := pySplitlines content
  match ct, ln with
  | "add", some k => joinLines (specInsertLine lines k nc)
  | "add", Option.none => content ++ "\n" ++ nc
  | "modify", some k => joinLines (lines.set (k - 1) nc)
  | "modify", Option.none => pyReplace content cur nc
  | "delete", some k => joinLines (lines.eraseIdx (k - 1))
  | "delete", Option.none => pyReplace content cur ""
  | _, _ => content

/-- Modelled from the spec: "returns the first path (in traversal
order) whose content contains the exact given snippet, and None if no
file matches" (§4.1). -/
def specFindFirst (st : RepoState) (snippet : String) : Option String :=
  (st.files.find? (fun pc => pyIn snippet pc.2)).map (fun pc => pc.1)

/-! ## Helper lemmas -/

theorem isPrefixOf_self_char (l : List Char) : l.isPrefixOf l = true := by
  induction l with
  | nil => rfl
  | cons c cs ih => simp [List.isPrefixOf, ih]

theorem pyIn_self (s : String) : pyIn s s = true := by
  unfold pyIn
  cases h : s.data with
  | nil => simp [containsSub, h]
  | cons c cs => simp [containsSub, h, isPrefixOf_self_char]

theorem isEmpty_false_of_ne (s : String) (h : s ≠ "") : s.isEmpty = false := by
  cases hs : s.isEmpty
  · rfl
  · exact absurd ((String.isEmpty_iff s).mp hs) h

/-! ## Claims -/

/-- Claim C1: `apply_changes` is claimed never to raise and to return
one textual outcome per attempted entry even when an entry is missing
fields such as `file_path`.  The code violates this: when the first
entry lacks `file_path`, the `KeyError` jumps to the `except` clause
whose error message references the local variable `file_path` before
any assignment, so the handler itself raises `UnboundLocalError`,
which escapes `apply_changes`.  This theorem evaluates the embedded
code at that failing input. -/
theorem apply_changes_unbound_local_on_missing_first_file_path :
    apply_changes { proposed_changes := [{}] } { files := [] } =
      .error ("UnboundLocalError: local variable referenced before assignment",
              { files := [] }) := rfl

/-- Claim C2 (counterexample): the claim says `analyze_feedback`
returns either a document with all four ChangeProposal keys or an
error document containing the original feedback text.  When the model
output has no brace span at all, the code returns an error document
carrying only the raw response, which does not contain the feedback
text — so the claim fails at this input. -/
theorem analyze_feedback_claim_counterexample :
    hasAllFourKeys (analyze_feedback "hello" (.ok "no json here")) = false ∧
    mentionsWithin 5 (analyze_feedback "hello" (.ok "no json here")) "hello" = false :=
  ⟨rfl, rfl⟩

/-- Claim C2 (amended): for every feedback text and every outcome of
the tool-calling loop, `analyze_feedback` returns a value that is
either marked with an `"error"` key or is exactly the JSON value
parsed from the extracted brace span of the model output (with no
shape guarantee); when the tool-calling loop itself raises, the error
document contains the original feedback text. -/
theorem analyze_feedback_total_shape (fb : String) (llm : Except String String) :
    (∀ e, llm = Except.error e →
      analyze_feedback fb llm =
        PyVal.dict [("error", .str ("Error analyzing feedback: " ++ e)),
                    ("feedback", .str fb)] ∧
      mentionsWithin 2 (analyze_feedback fb llm) fb = true) ∧
    (∀ out, llm = Except.ok out →
      hasKeyV (analyze_feedback fb llm) "error" = true ∨
        (extract_json_span out).bind (fun sp => jsonLoads (clean_json_str sp)) =
          some (analyze_feedback fb llm)) := by
  constructor
  · intro e he
    subst he
    refine ⟨rfl, ?_⟩
    have hstep : mentionsWithin 2 (analyze_feedback fb (Except.error e)) fb =
        ((pyIn fb "error" || pyIn fb ("Error analyzing feedback: " ++ e)) ||
          ((pyIn fb "feedback" || pyIn fb fb) || false)) := rfl
    rw [hstep, pyIn_self fb]
    simp
  · intro out ho
    subst ho
    unfold analyze_feedback
    cases hs : extract_json_span out with
    | none => left; simp only [hs]; rfl
    | some sp =>
      cases hj : jsonLoads (clean_json_str sp) with
      | none => left; simp only [hs, hj]; rfl
      | some v => right; simp only [hs, hj]; exact hj

/-- Claim C2 (witness for the amended theorem). -/
theorem analyze_feedback_total_shape_witness :
    analyze_feedback "x" (Except.error "boom") =
      PyVal.dict [("error", .str "Error analyzing feedback: boom"),
                  ("feedback", .str "x")] ∧
    mentionsWithin 2 (analyze_feedback "x" (Except.error "boom")) "x" = true :=
  (analyze_feedback_total_shape "x" (Except.error "boom")).1 "boom" rfl

/-- Claim C7 (counterexample): the claim says `find_file_with_code`
returns the first file whose content contains the snippet.  Every
string contains the empty snippet, yet the truthiness guard
`if code_snippet and ...` makes the empty snippet match nothing, so
the function returns `none` instead of the first file. -/
theorem find_file_with_code_empty_snippet :
    find_file_with_code { files := [("f.txt", "x")] } "" = Option.none ∧
    pyIn "" "x" = true :=
  ⟨rfl, rfl⟩

theorem findCodeLoop_empty_snippet (files : List (String × String)) :
    findCodeLoop files "" = Option.none := by
  induction files with
  | nil => rfl
  | cons pc rest ih =>
    obtain ⟨p, c⟩ := pc
    have hguard : (!String.isEmpty "") = false := rfl
    simp [findCodeLoop, hguard, ih]

theorem findCodeLoop_eq_find? (files : List (String × String)) (s : String) (h : s ≠ "") :
    findCodeLoop files s = (files.find? (fun pc => pyIn s pc.2)).map (fun pc => pc.1) := by
  induction files with
  | nil => rfl
  | cons pc rest ih =>
    obtain ⟨p, c⟩ := pc
    cases hc : pyIn s c <;>
      simp [findCodeLoop, isEmpty_false_of_ne s h, hc, List.find?, ih]

/-- Claim C7 (amended): for every non-empty snippet,
`find_file_with_code` returns the first path in traversal order whose
content contains the snippet, and `none` when no content does; for
the empty snippet it always returns `none`. -/
theorem find_file_with_code_spec (st : RepoState) (s : String) (h : s ≠ "") :
    find_file_with_code st s = specFindFirst st s ∧
    find_file_with_code st "" = Option.none := by
  refine ⟨findCodeLoop_eq_find? st.files s h, findCodeLoop_empty_snippet st.files⟩

/-- Claim C7 (witness for the amended theorem). -/
theorem find_file_with_code_spec_witness :
    find_file_with_code { files := [("a", "xy"), ("b", "zw")] } "z" =
      specFindFirst { files := [("a", "xy"), ("b", "zw")] } "z" ∧
    find_file_with_code { files := [("a", "xy"), ("b", "zw")] } "" = Option.none :=
  find_file_with_code_spec { files := [("a", "xy"), ("b", "zw")] } "z" (by decide)

theorem collapseCore_no_newline (cs : List Char)
    (h : cs.all (fun c => c ≠ '\n') = true) : collapseCore false cs = cs := by
  induction cs with
  | nil => rfl
  | cons c rest ih =>
    rw [List.all_cons, Bool.and_eq_true] at h
    have hc : ¬(c = '\n') := by simpa using h.1
    simp [collapseCore, hc, ih h.2]

/-- Claim C8: the brace extraction takes the span from the earliest
left brace to the latest right brace; on a single-line text that
itself starts with a left brace and ends with a right brace (e.g. any
minified JSON object) the repair step returns the text unchanged, so
the structured result equals that of parsing the text directly. -/
theorem repair_idempotent_on_single_line_json (s : String)
    (h1 : s.data.head? = some lbrace) (h2 : s.data.getLast? = some rbrace)
    (hn : s.data.all (fun c => c ≠ '\n') = true) :
    repairSpan s = some s ∧ (repairSpan s).map jsonLoads = some (jsonLoads s) := by
  have hspan : braceSpan s.data = some s.data := by
    cases hcs : s.data with
    | nil => rw [hcs] at h1; exact absurd h1 (by simp)
    | cons c t =>
      rw [hcs] at h1
      have hc : c = lbrace := by simpa using h1
      subst hc
      have hpre : bracePre (lbrace :: t) = lbrace :: t := by
        simp [bracePre, List.dropWhile_cons]
      have hlast : (lbrace :: t).reverse.head? = some rbrace := by
        rw [List.head?_reverse]; rw [hcs] at h2; exact h2
      cases hrev : (lbrace :: t).reverse with
      | nil => rw [hrev] at hlast; exact absurd hlast (by simp)
      | cons d u =>
        rw [hrev] at hlast
        have hd : d = rbrace := by simpa using hlast
        subst hd
        have hdw : braceRev (lbrace :: t) = rbrace :: u := by
          rw [braceRev, hpre, hrev]
          simp [List.dropWhile_cons]
        unfold braceSpan
        rw [hpre, hdw]
        have hback : (rbrace :: u).reverse = lbrace :: t := by
          rw [← hrev, List.reverse_reverse]
        simp [hback]
  have hclean : clean_json_str (String.mk s.data) = s := by
    unfold clean_json_str fixQuotes collapseNewlineRuns
    show String.mk (collapseCore false s.data) = s
    rw [collapseCore_no_newline s.data hn]
  have hrep : repairSpan s = some s := by
    unfold repairSpan extract_json_span
    rw [hspan]
    simp [hclean]
  exact ⟨hrep, by rw [hrep]; rfl⟩

/-- Claim C8 (witness): the two-character object text. -/
theorem repair_idempotent_witness :
    repairSpan "\x7b\x7d" = some "\x7b\x7d" ∧
    (repairSpan "\x7b\x7d").map jsonLoads = some (jsonLoads "\x7b\x7d") :=
  repair_idempotent_on_single_line_json "\x7b\x7d" (by decide) (by decide) (by decide)

theorem isPrefixOf_append_char (l t : List Char) : l.isPrefixOf (l ++ t) = true := by
  induction l with
  | nil => simp [List.isPrefixOf]
  | cons c cs ih => simp [List.isPrefixOf, ih]

theorem pyStartsWith_append (p r : String) : pyStartsWith p (p ++ r) = true := by
  unfold pyStartsWith
  rw [String.data_append]
  exact isPrefixOf_append_char p.data r.data

theorem pyIndex_in_range (n k : Nat) (h1 : 1 ≤ k) (h2 : k ≤ n) :
    pyIndex n ((k : Int) - 1) = some (k - 1) := by
  unfold pyIndex
  have h0 : ¬((k : Int) - 1 < 0) := by omega
  have hlt : (k : Int) - 1 < (n : Int) := by omega
  have ht : ((k : Int) - 1).toNat = k - 1 := by omega
  simp [h0, hlt, ht]

theorem pyListSet_in_range (l : List String) (k : Nat) (x : String)
    (h1 : 1 ≤ k) (h2 : k ≤ l.length) :
    pyListSet l ((k : Int) - 1) x = some (l.set (k - 1) x) := by
  unfold pyListSet
  rw [pyIndex_in_range l.length k h1 h2]
  rfl

theorem pyListDel_in_range (l : List String) (k : Nat)
    (h1 : 1 ≤ k) (h2 : k ≤ l.length) :
    pyListDel l ((k : Int) - 1) = some (l.eraseIdx (k - 1)) := by
  unfold pyListDel
  rw [pyIndex_in_range l.length k h1 h2]
  rfl

theorem pyListInsert_in_range (l : List String) (k : Nat) (x : String)
    (h1 : 1 ≤ k) (h2 : k ≤ l.length + 1) :
    pyListInsert l ((k : Int) - 1) x = l.take (k - 1) ++ x :: l.drop (k - 1) := by
  have h0 : ¬((k : Int) - 1 < 0) := by omega
  have hmin : (min ((k : Int) - 1) (l.length : Int)).toNat = k - 1 := by omega
  simp only [pyListInsert, h0, if_false, hmin]

/-- Claim C3: on the in-range domain (positive 1-indexed line number
within the file's lines — or one past the end for `add` — or no line
number at all), the new-content computation of `apply_changes` agrees
with the spec's six-case reference for `add`, `modify` and `delete`. -/
theorem computeNewContent_matches_spec (ct cur nc content : String) (ln : Option Nat)
    (hct : ct = "add" ∨ ct = "modify" ∨ ct = "delete")
    (hln : ∀ k, ln = some k →
      1 ≤ k ∧ k ≤ (pySplitlines content).length + (if ct = "add" then 1 else 0)) :
    computeNewContent ct (ln.map Int.ofNat) cur nc content =
      .content (specNewContent ct ln cur nc content) := by
  rcases hct with h | h | h <;> subst h
  · cases ln with
    | none => rfl
    | some k =>
      obtain ⟨h1, h2⟩ := hln k rfl
      have h2' : k ≤ (pySplitlines content).length + 1 := by simpa using h2
      show NewContent.content
          (joinLines (pyListInsert (pySplitlines content) (Int.ofNat k - 1) nc)) = _
      rw [Int.ofNat_eq_coe, pyListInsert_in_range (pySplitlines content) k nc h1 h2']
      rfl
  · cases ln with
    | none => rfl
    | some k =>
      obtain ⟨h1, h2⟩ := hln k rfl
      have h2' : k ≤ (pySplitlines content).length := by simpa using h2
      show (match pyListSet (pySplitlines content) (Int.ofNat k - 1) nc with
        | some ls => NewContent.content (joinLines ls)
        | Option.none => NewContent.indexError "list assignment index out of range") = _
      rw [Int.ofNat_eq_coe, pyListSet_in_range (pySplitlines content) k nc h1 h2']
      rfl
  · cases ln with
    | none => rfl
    | some k =>
      obtain ⟨h1, h2⟩ := hln k rfl
      have h2' : k ≤ (pySplitlines content).length := by simpa using h2
      show (match pyListDel (pySplitlines content) (Int.ofNat k - 1) with
        | some ls => NewContent.content (joinLines ls)
        | Option.none => NewContent.indexError "list assignment index out of range") = _
      rw [Int.ofNat_eq_coe, pyListDel_in_range (pySplitlines content) k h1 h2']
      rfl

/-- Claim C3 (witness): the spec's concrete example, `modify` with
line number 3 against `"a\nb\nc\nd"` and new code `"X"`. -/
theorem computeNewContent_matches_spec_witness :
    computeNewContent "modify" ((some 3).map Int.ofNat) "" "X" "a\nb\nc\nd" =
      NewContent.content "a\nb\nX\nd" := by
  rw [computeNewContent_matches_spec "modify" "" "X" "a\nb\nc\nd" (some 3)
      (Or.inr (Or.inl rfl))
      (by intro k hk; injection hk with hk; subst hk; decide)]
  decide

/-- Claim C4 (counterexample): the claim says an out-of-range
`line_number` produces a per-item failure outcome.  For an `add`
change, Python's `list.insert` clamps the out-of-range index instead
of raising, so the item succeeds: a line number of 100 against the
two-line file appends the code and opens a pull request — the single
outcome is a success, not a failure. -/
theorem apply_changes_out_of_range_add_succeeds :
    apply_changes
        { proposed_changes := [{ file_path := some "f", change_type := some "add",
                                 line_number := some 100, new_code := some "c",
                                 reason := some "r" }] }
        { files := [("f", "a\nb")] } =
      .ok ([agentOk ++ " PR Created: " ++ mkPrUrl 0],
           { files := [("f", "a\nb")],
             commits := [{ branch := branchName 0 "f", path := "f",
                           message := "AI Feedback Implementation: r",
                           content := "a\nb\nc", isCreate := false }],
             prs := 1 }) ∧
    pyStartsWith agentErr (agentOk ++ " PR Created: " ++ mkPrUrl 0) = false :=
  ⟨rfl, rfl⟩

/-- Claim C4 (amended): per-item apply errors — the file not found for
a non-`add` change, an out-of-range line number for `modify` or
`delete` (for `add` the index is clamped and the item succeeds), and
an unknown change type — each contribute exactly one failure-marked
outcome at the item's position, leave the repository untouched, and
let the batch continue with the remaining items. -/
theorem apply_changes_per_item_errors_isolated
    (st : RepoState) (carried : Option String) (c : ChangeItem) (cs : List ChangeItem)
    (fp0 ct nc reason rp : String)
    (hfp : c.file_path = some fp0) (hct : c.change_type = some ct)
    (hnc : c.new_code = some nc) (hre : c.reason = some reason)
    (hrp : rp = resolvedPath st (c.current_code.getD "") fp0)
    (herr :
      (lookupFile st rp = Option.none ∧ ct ≠ "add") ∨
      (∃ content, lookupFile st rp = some content ∧
        (computeNewContent ct c.line_number (c.current_code.getD "") nc content =
            NewContent.unknownType ∨
         ∃ msg, computeNewContent ct c.line_number (c.current_code.getD "") nc content =
            NewContent.indexError msg))) :
    ∃ msg, pyStartsWith agentErr msg = true ∧
      applyLoop st carried (c :: cs) =
        (match applyLoop st (some rp) cs with
         | .ok (msgs, stF) => .ok (msg :: msgs, stF)
         | .error e => .error e) := by
  subst hrp
  have hitem : ∃ msg, pyStartsWith agentErr msg = true ∧
      (applyItem st carried c =
        (some (resolvedPath st (c.current_code.getD "") fp0), .outcome msg st) ∨
      ∃ emsg, applyItem st carried c =
          (some (resolvedPath st (c.current_code.getD "") fp0), .raised emsg) ∧
          msg = agentErr ++ " Error applying change to " ++
            resolvedPath st (c.current_code.getD "") fp0 ++ ": " ++ emsg) := by
    rcases herr with ⟨hnone, hne⟩ | ⟨content, hsome, hcc⟩
    · refine ⟨agentErr ++ " File " ++ resolvedPath st (c.current_code.getD "") fp0 ++
        " not found for " ++ ct ++ " operation.", pyStartsWith_append _ _, Or.inl ?_⟩
      simp only [applyItem, hfp, hct, hnc, hre, hnone, hne, if_false]
    · rcases hcc with hunk | ⟨emsg, hidx⟩
      · refine ⟨agentErr ++ " Unknown change type: " ++ ct,
          pyStartsWith_append _ _, Or.inl ?_⟩
        simp only [applyItem, hfp, hct, hnc, hre, hsome, afterContent, hunk]
      · refine ⟨agentErr ++ " Error applying change to " ++
          resolvedPath st (c.current_code.getD "") fp0 ++ ": " ++ emsg,
          pyStartsWith_append _ _, Or.inr ⟨emsg, ?_, rfl⟩⟩
        simp only [applyItem, hfp, hct, hnc, hre, hsome, afterContent, hidx]
  obtain ⟨msg, hpre, hmsg⟩ := hitem
  refine ⟨msg, hpre, ?_⟩
  rcases hmsg with happ | ⟨emsg, happ, hmsgeq⟩
  · simp only [applyLoop, happ]
  · subst hmsgeq
    simp only [applyLoop, happ]

/-- Claim C4 (witness for the amended theorem): a `modify` change on a
missing file, with an empty rest of the batch. -/
theorem apply_changes_per_item_errors_isolated_witness :
    ∃ msg, pyStartsWith agentErr msg = true ∧
      applyLoop { files := [] } Option.none
          ([{ file_path := some "f", change_type := some "modify",
              new_code := some "x", reason := some "r" }] : List ChangeItem) =
        (match applyLoop { files := [] } (some "f") [] with
         | .ok (msgs, stF) => .ok (msg :: msgs, stF)
         | .error e => .error e) :=
  apply_changes_per_item_errors_isolated { files := [] } Option.none
    { file_path := some "f", change_type := some "modify",
      new_code := some "x", reason := some "r" } [] "f" "modify" "x" "r" "f"
    rfl rfl rfl rfl rfl (Or.inl ⟨rfl, by decide⟩)

/-- The single successful change used for the C5 failing input. -/
def goodAddItem : ChangeItem :=
  { file_path := some "f", change_type := some "add",
    new_code := some "c", reason := some "r" }

/-- Claim C5: the claim says `apply_proposal_changes` reports overall
success exactly when every attempted item succeeded and at least one
pull request was produced.  The code violates this: agent.py is
mojibake-encoded, so its outcome markers are the three-character
strings `agentOk`/`agentErr`, while services.py scans for the emoji
markers `svcOk`/`svcErr`; no outcome is ever classified, so even a run
whose only item succeeds and opens a pull request reports
`success = false` with empty `pull_request_urls`. -/
theorem apply_proposal_changes_marker_mismatch :
    (apply_proposal_changes { proposal_data := { proposed_changes := some [goodAddItem] } }
        { files := [("f", "a\nb")] } Option.none "t0").1.success = false ∧
    (apply_proposal_changes { proposal_data := { proposed_changes := some [goodAddItem] } }
        { files := [("f", "a\nb")] } Option.none "t0").1.pull_request_urls = [] ∧
    (apply_proposal_changes { proposal_data := { proposed_changes := some [goodAddItem] } }
        { files := [("f", "a\nb")] } Option.none "t0").1.errors = [] ∧
    apply_changes { feedback_analysis := some "", proposed_changes := [goodAddItem] }
        { files := [("f", "a\nb")] } =
      .ok ([agentOk ++ " PR Created: " ++ mkPrUrl 0],
           { files := [("f", "a\nb")],
             commits := [{ branch := branchName 0 "f", path := "f",
                           message := "AI Feedback Implementation: r",
                           content := "a\nb\nc", isCreate := false }],
             prs := 1 }) ∧
    pyStartsWith (svcOk ++ " PR Created:") (agentOk ++ " PR Created: " ++ mkPrUrl 0) = false :=
  ⟨rfl, rfl, rfl, rfl, rfl⟩

theorem allFieldsIn_dict (fs : List String) (d : List (String × PyVal)) :
    allFieldsIn fs (.dict d) = .ok (fs.all (fun f => hasKeyD d f)) := by
  induction fs with
  | nil => rfl
  | cons f fs ih =>
    show (do
      let b ← pyFieldIn f (.dict d)
      if b then allFieldsIn fs (.dict d) else Except.ok false) = _
    cases h : hasKeyD d f <;> simp only [pyFieldIn, h, ih, List.all_cons,
      Bool.true_and, Bool.false_and] <;> rfl

theorem checkChangesLoop_dicts (ds : List (List (String × PyVal))) :
    checkChangesLoop (ds.map PyVal.dict) =
      .ok (ds.all (fun d => requiredChangeFields.all (fun f => hasKeyD d f))) := by
  induction ds with
  | nil => rfl
  | cons d ds ih =>
    show (do
      let ok ← allFieldsIn requiredChangeFields (.dict d)
      if ok then checkChangesLoop (ds.map PyVal.dict) else Except.ok false) = _
    rw [allFieldsIn_dict]
    cases h : requiredChangeFields.all (fun f => hasKeyD d f) <;> simp only [h, ih,
      List.all_cons, Bool.true_and, Bool.false_and] <;> rfl

/-- Claim C6: `validate_proposal` is a pure predicate; on any document
whose `proposed_changes` value (when present) is a list of
dictionaries, it returns `True` exactly when the document carries no
error marker, has both the `feedback_analysis` and `proposed_changes`
keys, and every change entry carries `file_path`, `change_type`,
`new_code` and `reason` — a single bad entry rejects the whole
document regardless of the other entries. -/
theorem validate_proposal_characterization (p : List (String × PyVal))
    (ds : List (List (String × PyVal)))
    (hpc : match lookupKey p "proposed_changes" with
      | some v => v = PyVal.list (ds.map PyVal.dict)
      | Option.none => ds = []) :
    validate_proposal p =
      .ok (!hasKeyD p "error" &&
        (hasKeyD p "feedback_analysis" && (hasKeyD p "proposed_changes" &&
          ds.all (fun d => requiredChangeFields.all (fun f => hasKeyD d f))))) := by
  unfold validate_proposal
  cases he : hasKeyD p "error" with
  | true => simp [he]
  | false =>
    cases hfa : hasKeyD p "feedback_analysis" with
    | false => simp [he, hfa]
    | true =>
      cases hpk : hasKeyD p "proposed_changes" with
      | false => simp [he, hfa, hpk]
      | true =>
        obtain ⟨v, hv⟩ := Option.isSome_iff_exists.mp hpk
        rw [hv] at hpc
        subst hpc
        have hget : getDefault p "proposed_changes" (.list []) =
            PyVal.list (ds.map PyVal.dict) := by
          unfold getDefault
          rw [hv]
          rfl
        simp only [he, hfa, hpk, Bool.and_true, Bool.true_and, Bool.not_false,
          Bool.and_self, if_false, hget]
        show (do
          let items ← pyIterElems (PyVal.list (ds.map PyVal.dict))
          checkChangesLoop items) = _
        exact checkChangesLoop_dicts ds

/-- Claim C6 (witness): a document whose single change entry lacks
`reason` is rejected even though all other parts are well-formed. -/
theorem validate_proposal_characterization_witness :
    validate_proposal
        [("feedback_analysis", .str "a"),
         ("proposed_changes", .list [.dict
            [("file_path", .str "f"), ("change_type", .str "m"), ("new_code", .str "n")]])] =
      .ok false := by
  rw [validate_proposal_characterization
      [("feedback_analysis", .str "a"),
       ("proposed_changes", .list [.dict
          [("file_path", .str "f"), ("change_type", .str "m"), ("new_code", .str "n")]])]
      [[("file_path", .str "f"), ("change_type", .str "m"), ("new_code", .str "n")]]
      rfl]
  rfl

/-- Claim C10: `AIAnalysisService.validate_proposal` rebuilds the
document with defaults — dropping any error marker, substituting the
empty string and the empty list for the two required keys — so it
returns `True` exactly when every entry of the document's
`proposed_changes` (if any) carries the four required fields; in
particular the empty document and an error-marked document validate. -/
theorem service_validate_proposal_characterization (pd : List (String × PyVal))
    (ds : List (List (String × PyVal)))
    (hpc : match lookupKey pd "proposed_changes" with
      | some v => v = PyVal.list (ds.map PyVal.dict)
      | Option.none => ds = []) :
    service_validate_proposal pd =
      .ok (ds.all (fun d => requiredChangeFields.all (fun f => hasKeyD d f))) := by
  unfold service_validate_proposal
  cases hl : lookupKey pd "proposed_changes" with
  | none =>
    rw [hl] at hpc
    subst hpc
    have hget : getDefault pd "proposed_changes" (.list []) = PyVal.list [] := by
      unfold getDefault; rw [hl]; rfl
    rw [hget]
    rfl
  | some v =>
    rw [hl] at hpc
    subst hpc
    have hget : getDefault pd "proposed_changes" (.list []) =
        PyVal.list (ds.map PyVal.dict) := by
      unfold getDefault; rw [hl]; rfl
    rw [hget]
    unfold validate_proposal
    show (do
      let items ← pyIterElems (getDefault
        [("feedback_analysis", getDefault pd "feedback_analysis" (.str "")),
         ("proposed_changes", PyVal.list (ds.map PyVal.dict))] "proposed_changes" (.list []))
      checkChangesLoop items) = _
    have hget2 : getDefault
        [("feedback_analysis", getDefault pd "feedback_analysis" (.str "")),
         ("proposed_changes", PyVal.list (ds.map PyVal.dict))] "proposed_changes" (.list []) =
        PyVal.list (ds.map PyVal.dict) := rfl
    rw [hget2]
    exact checkChangesLoop_dicts ds

/-- Claim C10 (witness): an error-marked document with no
`proposed_changes` key validates as `True` through the service. -/
theorem service_validate_proposal_characterization_witness :
    service_validate_proposal [("error", .str "boom")] = .ok true := by
  rw [service_validate_proposal_characterization [("error", .str "boom")] [] rfl]
  rfl

/-- The first character of every outcome message emitted by
`apply_changes`: U+201A, the first character of both mojibake markers. -/
def markerChar : Char := Char.ofNat 8218

theorem applyItem_outcome_head (st : RepoState) (carried : Option String) (c : ChangeItem)
    (fp' : Option String) (msg : String) (st' : RepoState)
    (h : applyItem st carried c = (fp', .outcome msg st')) :
    msg.data.head? = some markerChar := by
  simp only [applyItem, afterContent, commitAndPr] at h
  repeat' split at h
  all_goals injection h with hfst hsnd
  all_goals first
    | (injection hsnd with hmsg hst; subst hmsg; rfl)
    | injection hsnd

theorem applyLoop_msgs_head (cs : List ChangeItem) :
    ∀ st carried msgs stF, applyLoop st carried cs = .ok (msgs, stF) →
    ∀ m ∈ msgs, m.data.head? = some markerChar := by
  induction cs with
  | nil =>
    intro st carried msgs stF h m hm
    simp only [applyLoop] at h
    injection h with h'
    injection h' with ha hb
    subst ha
    cases hm
  | cons c cs ih =>
    intro st carried msgs stF h m hm
    simp only [applyLoop] at h
    rcases happ : applyItem st carried c with ⟨fp', ir⟩
    rw [happ] at h
    cases ir with
    | outcome msg0 st0 =>
      dsimp only at h
      cases hrec : applyLoop st0 fp' cs with
      | ok p =>
        obtain ⟨ms, stF'⟩ := p
        rw [hrec] at h
        injection h with h'
        injection h' with ha hb
        subst ha
        rcases List.mem_cons.mp hm with rfl | hmem
        · exact applyItem_outcome_head st carried c fp' m st0 happ
        · exact ih st0 fp' ms stF' hrec m hmem
      | error e =>
        rw [hrec] at h
        exact Except.noConfusion h
    | raised emsg =>
      cases fp' with
      | none => exact Except.noConfusion h
      | some fpv =>
        dsimp only at h
        cases hrec : applyLoop st (some fpv) cs with
        | ok p =>
          obtain ⟨ms, stF'⟩ := p
          rw [hrec] at h
          injection h with h'
          injection h' with ha hb
          subst ha
          rcases List.mem_cons.mp hm with rfl | hmem
          · rfl
          · exact ih st (some fpv) ms stF' hrec m hmem
        | error e =>
          rw [hrec] at h
          exact Except.noConfusion h

theorem pyStartsWith_svc_false (pre : String) (hpre : pre.data.head? = some '✅' ∨
    pre.data.head? = some '❌') (r : String) (hr : r.data.head? = some markerChar) :
    pyStartsWith pre r = false := by
  unfold pyStartsWith
  cases hp : pre.data with
  | nil => rcases hpre with h | h <;> rw [hp] at h <;> exact Option.noConfusion h
  | cons pc pt =>
    cases hd : r.data with
    | nil => rw [hd] at hr; exact Option.noConfusion hr
    | cons rc rt =>
      rw [hd] at hr
      have hrc : rc = markerChar := by simpa using hr
      subst hrc
      have hpc : pc = '✅' ∨ pc = '❌' := by
        rcases hpre with h | h <;> rw [hp] at h <;> simp at h <;> [left; right] <;> exact h
      have hne : (pc == markerChar) = false := by
        rcases hpc with h | h <;> subst h <;> rfl
      simp [List.isPrefixOf, hne]

/-- Claim C9: across `apply_proposal_changes` the stored proposal row
— its document and its record fields — is returned unchanged: no
partial-apply state is written into the proposal document.  (The
success branch that would write `applied_changes` into the document is
unreachable: every agent outcome begins with the mojibake marker, so
the service's emoji-marker scan classifies nothing and `success` is
always false.) -/
theorem apply_proposal_changes_preserves_proposal (prec : ProposalRec) (st : RepoState)
    (idx : Option (List Int)) (now : String) :
    (apply_proposal_changes prec st idx now).2.1 = prec := by
  unfold apply_proposal_changes
  cases idx
  all_goals (
    dsimp only
    repeat' split
    all_goals try rfl
    all_goals (
      rename_i results st' heq hsucc
      exfalso
      have hmarks := applyLoop_msgs_head _ _ _ _ _ heq
      have hurls : results.filterMap (fun r =>
          if pyStartsWith (svcOk ++ " PR Created:") r then
            some (pyReplace r (svcOk ++ " PR Created: ") "")
          else Option.none) = [] := by
        rw [List.filterMap_eq_nil_iff]
        intro r hr
        rw [pyStartsWith_svc_false (svcOk ++ " PR Created:") (Or.inl rfl) r (hmarks r hr)]
        rfl
      rw [hurls] at hsucc
      simp at hsucc))

end FeaturePilot
